import Mathlib

/-!
Shallow embedding of the account-security core of the `backend-plus`
repository (TypeScript/Express/Mongoose), covering:

* `src/models/user.model.ts` — the user document, the lockout counters and
  the instance/static methods `isAccountLocked`, `incrementLoginAttempts`,
  `resetLoginAttempts`, `findByCredentials`, `comparePassword`;
* `src/auth/services/auth.service.ts` — `createUser`, `loginUser`,
  `generateToken`, `verifyToken`, `normalizePassword` and helpers;
* `src/auth/services/recovery.service.ts` — `generateRecoveryCode`,
  `verifyRecoveryCode`, `generateBackupCodes`, `validateBackupCode`;
* `src/auth/controllers/recovery.controller.ts` — the
  `initPasswordReset` and `useBackupCode` HTTP handlers;
* `src/utils/security.ts` — `validatePasswordStrength`, `isValidEmail`,
  `isValidNickname`.

Modelling conventions: JS timestamps (`Date`) are `Nat` milliseconds;
MongoDB stores are Lean lists threaded explicitly; runtime-provided
functions (bcrypt salting, `String.prototype.normalize('NFKC')`,
`crypto.createHash('sha256')`, `crypto.randomBytes`) enter as explicit
function/value parameters; `async/await` sequencing becomes ordinary
sequential evaluation; thrown errors become explicit result constructors.
-/

namespace BackendPlus

/-- JS `Date` instants, as milliseconds since the epoch. -/
abbrev Millis := Nat

/-! ## JS string primitives

The normalization policy uses `String.prototype.toLowerCase()` and
`String.prototype.trim()`.  We model them structurally over the character
list (ASCII lowercasing; whitespace stripped from both ends). -/

/-- JS `toLowerCase()` (ASCII model). -/
def jsToLowerCase (s : String) : String :=
  ⟨s.data.map Char.toLower⟩

/-- JS `trim()`: strip leading and trailing whitespace. -/
def jsTrim (s : String) : String :=
  ⟨((s.data.dropWhile Char.isWhitespace).reverse.dropWhile Char.isWhitespace).reverse⟩

/-- The email normalization used by the service and the schema:
`email.toLowerCase().trim()`. -/
def normalizeEmail (email : String) : String :=
  jsTrim (jsToLowerCase email)

/-! ## bcrypt model

`bcrypt.hash(pw, rounds)` produces a salted one-way hash and
`bcrypt.compare(candidate, hash)` checks the candidate against it.  We model
a stored hash as the pair of the salt used and the hashed plaintext, and
comparison as equality of the candidate with that plaintext: this captures
exactly the contract `compare(p, hash(salt, q)) = (p = q)` that the code
relies on. -/

structure BcryptHash where
  salt : Nat
  plain : String
deriving Repr, DecidableEq

/-- Model of `bcrypt.hash` at a given salt. -/
def bcryptHash (salt : Nat) (plain : String) : BcryptHash :=
  ⟨salt, plain⟩

/-- Model of `bcrypt.compare`. -/
def bcryptCompare (candidate : String) (h : BcryptHash) : Bool :=
  candidate == h.plain

/-! ## User documents (`src/models/user.model.ts`) -/

/-- `MAX_LOGIN_ATTEMPTS` from `user.model.ts`. -/
def MAX_LOGIN_ATTEMPTS : Nat := 5

/-- `LOCK_TIME` from `user.model.ts`: 2 hours in milliseconds. -/
def LOCK_TIME : Nat := 2 * 60 * 60 * 1000

/-- A persisted user document.  `lockUntil = none` models the `null`/unset
field; `failedLoginAttempts` is the schema default 0 when unset. -/
structure UserDoc where
  id : String
  email : String
  password : BcryptHash
  nickname : String
  isVerified : Bool := false
  failedLoginAttempts : Nat := 0
  accountLocked : Bool := false
  lockUntil : Option Millis := none
  lastLoginAt : Option Millis := none
  backupCodes : List String := []
deriving Repr, DecidableEq

/-- `userSchema.methods.isAccountLocked` (and the identical `isLocked`
virtual): `!!(this.lockUntil && this.lockUntil > new Date())`. -/
def isAccountLocked (u : UserDoc) (now : Millis) : Bool :=
  match u.lockUntil with
  | some t => decide (now < t)
  | none => false

/-- The guard of `incrementLoginAttempts`:
`this.lockUntil && this.lockUntil < new Date()`. -/
def lockLapsed (u : UserDoc) (now : Millis) : Bool :=
  match u.lockUntil with
  | some t => decide (t < now)
  | none => false

/-- `userSchema.methods.incrementLoginAttempts`: if the lock has lapsed,
`$unset` `lockUntil`/`accountLocked` and `$set failedLoginAttempts: 1`;
otherwise `$inc failedLoginAttempts` and, when the incremented counter
reaches `MAX_LOGIN_ATTEMPTS` on an account that is not (virtually) locked,
also `$set` `accountLocked: true` and `lockUntil: now + LOCK_TIME`. -/
def incrementLoginAttempts (u : UserDoc) (now : Millis) : UserDoc :=
  if lockLapsed u now then
    { u with lockUntil := none, accountLocked := false, failedLoginAttempts := 1 }
  else
    let u' := { u with failedLoginAttempts := u.failedLoginAttempts + 1 }
    if decide (MAX_LOGIN_ATTEMPTS ≤ u.failedLoginAttempts + 1) && !(isAccountLocked u now) then
      { u' with accountLocked := true, lockUntil := some (now + LOCK_TIME) }
    else
      u'

/-- `userSchema.methods.resetLoginAttempts`: `$unset` of
`failedLoginAttempts`, `lockUntil`, `accountLocked` (the unset counter reads
back as the schema default 0) and `$set lastLoginAt: new Date()`. -/
def resetLoginAttempts (u : UserDoc) (now : Millis) : UserDoc :=
  { u with
    failedLoginAttempts := 0
    lockUntil := none
    accountLocked := false
    lastLoginAt := some now }

/-- `userSchema.methods.comparePassword`: `bcrypt.compare` of the raw
candidate against the stored hash. -/
def comparePassword (u : UserDoc) (candidatePassword : String) : Bool :=
  bcryptCompare candidatePassword u.password

/-! ## The user collection -/

abbrev UserStore := List UserDoc

/-- `User.findOne({ email })` — first document with the given email
(emails carry a unique index). -/
def findOneByEmail (store : UserStore) (email : String) : Option UserDoc :=
  store.find? (fun u => u.email == email)

/-- `user.updateOne(...)` materialised on the collection: rewrite the
document with the given id. -/
def updateUserInStore (store : UserStore) (id : String) (f : UserDoc → UserDoc) : UserStore :=
  store.map (fun u => if u.id == id then f u else u)

/-- Outcomes of `User.findByCredentials`: `null` for an unknown email,
thrown `Error('ACCOUNT_LOCKED')`, `null` after a password mismatch (the
mismatch having incremented the attempt counter), or the found user. -/
inductive FindByCredentialsResult where
  | noUser
  | accountLockedErr
  | badPassword
  | ok (u : UserDoc)
deriving Repr, DecidableEq

/-- `userSchema.statics.findByCredentials`: normalize the email, look the
user up with the credential projection, hard-fail `ACCOUNT_LOCKED` when
`isAccountLocked()`, compare the password, and on mismatch run
`incrementLoginAttempts` / on match run `resetLoginAttempts`.  Returns the
outcome together with the updated collection. -/
def findByCredentials (store : UserStore) (email password : String) (now : Millis) :
    FindByCredentialsResult × UserStore :=
  let normalizedEmail := normalizeEmail email
  match findOneByEmail store normalizedEmail with
  | none => (.noUser, store)
  | some user =>
    if isAccountLocked user now then
      (.accountLockedErr, store)
    else if comparePassword user password then
      (.ok user, updateUserInStore store user.id (fun u => resetLoginAttempts u now))
    else
      (.badPassword, updateUserInStore store user.id (fun u => incrementLoginAttempts u now))

/-! ## Theorems for the Lockout Policy transitions -/

/-- Claim C8: for every account whose `lockedUntil` timestamp has already
passed, the failure transition `incrementLoginAttempts` performs an
implicit unlock — clearing `accountLocked` and `lockUntil` — and sets
`failedLoginAttempts` to exactly 1 for the current failure, rather than
incrementing the stale counter or forgiving the attempt. -/
theorem lapsedLock_increment_resets_to_one (u : UserDoc) (t now : Millis)
    (hlock : u.lockUntil = some t) (hpassed : t < now) :
    incrementLoginAttempts u now =
      { u with lockUntil := none, accountLocked := false, failedLoginAttempts := 1 } := by
  unfold incrementLoginAttempts lockLapsed
  rw [hlock]
  simp [hpassed]

/-- Witness for C8 at a concrete locked-and-lapsed account. -/
theorem lapsedLock_increment_resets_to_one_witness :
    incrementLoginAttempts
      { id := "u1", email := "alice@example.com", password := bcryptHash 0 "Str0ngPass1",
        nickname := "alice_01", failedLoginAttempts := 5, accountLocked := true,
        lockUntil := some 1000 } 2000 =
      { id := "u1", email := "alice@example.com", password := bcryptHash 0 "Str0ngPass1",
        nickname := "alice_01", failedLoginAttempts := 1, accountLocked := false,
        lockUntil := none } :=
  lapsedLock_increment_resets_to_one _ 1000 2000 rfl (by decide)

/-! ## Token Service (`AuthService.generateToken` / `AuthService.verifyToken`)

`jsonwebtoken` signs the payload together with `iat`/`exp` and the
configured issuer/audience using the server secret.  We model the HMAC
signature as a perfect MAC: the signature value is the pair of the secret
and the signed content, so a signature verifies against a secret exactly
when it was produced over this content with that secret.  A wire token is
either a well-formed signed token or malformed bytes. -/

/-- The claims `AuthService.generateToken` signs (`AuthTokenPayload`
without the added `iat`/`exp`). -/
structure JwtClaims where
  id : String
  email : String
  nickname : String
deriving Repr, DecidableEq

/-- The full signed content of a JWT: payload plus the registered claims
`iat`, `exp`, `iss`, `aud` added at signing time. -/
structure JwtContent where
  payload : JwtClaims
  iat : Millis
  exp : Millis
  iss : String
  aud : String
deriving Repr, DecidableEq

/-- Perfect-MAC model of the HMAC signature over the token content. -/
structure JwtSignature where
  secret : String
  content : JwtContent
deriving Repr, DecidableEq

/-- A structurally well-formed token as it travels on the wire. -/
structure SignedToken where
  content : JwtContent
  sig : JwtSignature
deriving Repr, DecidableEq

/-- What `AuthService.verifyToken` receives: a string that either parses
into a signed token or is malformed. -/
inductive JwtWire where
  | malformed
  | signed (t : SignedToken)
deriving Repr, DecidableEq

/-- The `AuthConfig` values consulted by the token service:
`getJwtSecret`, `getJwtExpiresIn` (as a TTL in milliseconds),
`getJwtIssuer`, `getJwtAudience`. -/
structure TokenConfig where
  jwtSecret : String
  jwtExpiresIn : Millis
  jwtIssuer : String
  jwtAudience : String
deriving Repr, DecidableEq

/-- `AuthService.generateToken`: `jwt.sign(payload, secret, { expiresIn,
issuer, audience })` — stamps `iat = now`, `exp = now + TTL`, the
configured issuer/audience, and signs everything with the secret. -/
def generateToken (cfg : TokenConfig) (payload : JwtClaims) (now : Millis) : SignedToken :=
  let content : JwtContent :=
    { payload := payload
      iat := now
      exp := now + cfg.jwtExpiresIn
      iss := cfg.jwtIssuer
      aud := cfg.jwtAudience }
  { content := content, sig := { secret := cfg.jwtSecret, content := content } }

/-- The two error kinds `AuthService.verifyToken` maps `jsonwebtoken`
failures to: `TokenExpiredError ↦ TOKEN_EXPIRED`, `JsonWebTokenError`
(malformed token, bad signature, issuer/audience mismatch) ↦
`INVALID_TOKEN`. -/
inductive TokenError where
  | tokenExpired
  | invalidToken
deriving Repr, DecidableEq

/-- `AuthService.verifyToken`: `jwt.verify(token, secret, { issuer,
audience })`, with `jsonwebtoken`'s check order — decode (malformed →
`JsonWebTokenError`), verify the signature (→ `JsonWebTokenError`), check
`exp` (→ `TokenExpiredError`, thrown when `now ≥ exp`), then check the
audience and the issuer (→ `JsonWebTokenError`).  The service converts the
two error classes to `TOKEN_EXPIRED` and `INVALID_TOKEN`. -/
def verifyToken (cfg : TokenConfig) (w : JwtWire) (now : Millis) :
    Except TokenError JwtContent :=
  match w with
  | .malformed => .error .invalidToken
  | .signed t =>
    if t.sig ≠ ({ secret := cfg.jwtSecret, content := t.content } : JwtSignature) then
      .error .invalidToken
    else if t.content.exp ≤ now then
      .error .tokenExpired
    else if t.content.aud ≠ cfg.jwtAudience then
      .error .invalidToken
    else if t.content.iss ≠ cfg.jwtIssuer then
      .error .invalidToken
    else
      .ok t.content

/-- Claim C5: the token round-trip and the failure taxonomy.
(1) `verifyToken (generateToken claims)` within the TTL succeeds and
returns the input claims, with `iat`/`exp` the only additions;
(2) a genuinely issued token checked at or past its expiry fails with
`TOKEN_EXPIRED`;
(3) a malformed token fails with `INVALID_TOKEN`;
(4) a token whose signature was not produced by the server secret over its
content fails with `INVALID_TOKEN`;
(5) an unexpired, correctly signed token whose audience or issuer does not
match the configuration fails with `INVALID_TOKEN`. -/
theorem verifyToken_roundtrip_and_failures (cfg : TokenConfig) :
    (∀ (claims : JwtClaims) (issuedAt checkedAt : Millis),
        checkedAt < issuedAt + cfg.jwtExpiresIn →
        verifyToken cfg (.signed (generateToken cfg claims issuedAt)) checkedAt =
          .ok { payload := claims, iat := issuedAt, exp := issuedAt + cfg.jwtExpiresIn,
                iss := cfg.jwtIssuer, aud := cfg.jwtAudience }) ∧
    (∀ (claims : JwtClaims) (issuedAt checkedAt : Millis),
        issuedAt + cfg.jwtExpiresIn ≤ checkedAt →
        verifyToken cfg (.signed (generateToken cfg claims issuedAt)) checkedAt =
          .error .tokenExpired) ∧
    (∀ (now : Millis), verifyToken cfg .malformed now = .error .invalidToken) ∧
    (∀ (t : SignedToken) (now : Millis),
        t.sig ≠ ({ secret := cfg.jwtSecret, content := t.content } : JwtSignature) →
        verifyToken cfg (.signed t) now = .error .invalidToken) ∧
    (∀ (t : SignedToken) (now : Millis),
        t.sig = ({ secret := cfg.jwtSecret, content := t.content } : JwtSignature) →
        now < t.content.exp →
        (t.content.aud ≠ cfg.jwtAudience ∨ t.content.iss ≠ cfg.jwtIssuer) →
        verifyToken cfg (.signed t) now = .error .invalidToken) := by
  refine ⟨?_, ?_, ?_, ?_, ?_⟩
  · intro claims issuedAt checkedAt h
    simp [verifyToken, generateToken, Nat.not_le.mpr h]
  · intro claims issuedAt checkedAt h
    simp [verifyToken, generateToken, h]
  · intro now
    rfl
  · intro t now h
    simp [verifyToken, h]
  · intro t now hsig hexp hmm
    rcases hmm with haud | hiss
    · simp [verifyToken, hsig, Nat.not_le.mpr hexp, haud]
    · rcases em (t.content.aud = cfg.jwtAudience) with haud | haud
      · simp [verifyToken, hsig, Nat.not_le.mpr hexp, haud, hiss]
      · simp [verifyToken, hsig, Nat.not_le.mpr hexp, haud]

/-- Witness for C5: the round-trip and each failure branch evaluated at a
concrete configuration, claims and clock. -/
theorem verifyToken_roundtrip_and_failures_witness :
    verifyToken ⟨"s", 1000, "astrolune-api", "astrolune-client"⟩
        (.signed (generateToken ⟨"s", 1000, "astrolune-api", "astrolune-client"⟩
          ⟨"u1", "alice@example.com", "alice_01"⟩ 50)) 100 =
      .ok { payload := ⟨"u1", "alice@example.com", "alice_01"⟩, iat := 50, exp := 1050,
            iss := "astrolune-api", aud := "astrolune-client" } ∧
    verifyToken ⟨"s", 1000, "astrolune-api", "astrolune-client"⟩
        (.signed (generateToken ⟨"s", 1000, "astrolune-api", "astrolune-client"⟩
          ⟨"u1", "alice@example.com", "alice_01"⟩ 50)) 1050 =
      .error .tokenExpired ∧
    verifyToken ⟨"s", 1000, "astrolune-api", "astrolune-client"⟩ .malformed 0 =
      .error .invalidToken ∧
    verifyToken ⟨"s", 1000, "astrolune-api", "astrolune-client"⟩
        (.signed { content := { payload := ⟨"u1", "e", "n"⟩, iat := 0, exp := 99,
                                iss := "astrolune-api", aud := "astrolune-client" },
                   sig := { secret := "other",
                            content := { payload := ⟨"u1", "e", "n"⟩, iat := 0, exp := 99,
                                         iss := "astrolune-api", aud := "astrolune-client" } } }) 0 =
      .error .invalidToken ∧
    verifyToken ⟨"s", 1000, "astrolune-api", "astrolune-client"⟩
        (.signed { content := { payload := ⟨"u1", "e", "n"⟩, iat := 0, exp := 99,
                                iss := "astrolune-api", aud := "rogue-client" },
                   sig := { secret := "s",
                            content := { payload := ⟨"u1", "e", "n"⟩, iat := 0, exp := 99,
                                         iss := "astrolune-api", aud := "rogue-client" } } }) 0 =
      .error .invalidToken := by
  have h := verifyToken_roundtrip_and_failures ⟨"s", 1000, "astrolune-api", "astrolune-client"⟩
  exact ⟨h.1 ⟨"u1", "alice@example.com", "alice_01"⟩ 50 100 (by decide),
         h.2.1 ⟨"u1", "alice@example.com", "alice_01"⟩ 50 1050 (by decide),
         h.2.2.1 0,
         h.2.2.2.1 _ 0 (by decide),
         h.2.2.2.2 _ 0 (by decide) (by decide) (Or.inl (by decide))⟩

/-! ## Strength/format validators (`src/utils/security.ts`) -/

/-- The password-policy switches read from `AuthConfig`
(`getPasswordMinLength`, `getPasswordRequireUppercase`,
`getPasswordRequireNumber`, `getPasswordRequireSpecialChar`); the defaults
mirror the environment-variable defaults. -/
structure PasswordPolicy where
  minLength : Nat := 8
  requireUppercase : Bool := true
  requireNumber : Bool := true
  requireSpecialChar : Bool := true
deriving Repr, DecidableEq

/-- The regex class `/[A-Z]/`. -/
def isUppercaseAscii (c : Char) : Bool :=
  'A' ≤ c && c ≤ 'Z'

/-- The regex class `/[a-z]/`. -/
def isLowercaseAscii (c : Char) : Bool :=
  'a' ≤ c && c ≤ 'z'

/-- The regex class `/\d/`. -/
def isDigitAscii (c : Char) : Bool :=
  '0' ≤ c && c ≤ '9'

/-- The special characters accepted by `validatePasswordStrength`
(the braces, apostrophe, double quote and backslash given by code). -/
def specialChars : List Char :=
  ['!', '@', '#', '$', '%', '^', '&', '*', '(', ')', '_', '+', '-', '=', '[', ']',
   Char.ofNat 123, Char.ofNat 125, ';', Char.ofNat 39, ':', Char.ofNat 34,
   Char.ofNat 92, '|', ',', '.', '<', '>', '/', '?']

/-- Membership in the special-character class of `validatePasswordStrength`. -/
def isSpecialChar (c : Char) : Bool :=
  specialChars.contains c

/-- `SecurityUtils.validatePasswordStrength`: reject when shorter than the
minimum length; when uppercase is required and none present; when no
lowercase is present (always required); when a digit is required and none
present; when a special character is required and none present. -/
def validatePasswordStrength (policy : PasswordPolicy) (password : String) : Bool :=
  if password.data.length < policy.minLength then false
  else if policy.requireUppercase && !(password.data.any isUppercaseAscii) then false
  else if !(password.data.any isLowercaseAscii) then false
  else if policy.requireNumber && !(password.data.any isDigitAscii) then false
  else if policy.requireSpecialChar && !(password.data.any isSpecialChar) then false
  else true

/-- `SecurityUtils.isValidNickname`: `/^[a-zA-Z0-9_]{3,30}$/`. -/
def isValidNickname (nickname : String) : Bool :=
  decide (3 ≤ nickname.data.length) && decide (nickname.data.length ≤ 30) &&
    nickname.data.all (fun c => isUppercaseAscii c || isLowercaseAscii c ||
      isDigitAscii c || c == '_')

/-- `SecurityUtils.isValidEmail`: `/^[^\s@]+@[^\s@]+\.[^\s@]+$/` — the
string splits at its sole `@` into a nonempty local part and a domain that
contains an interior dot, with no whitespace or further `@` anywhere. -/
def isValidEmail (email : String) : Bool :=
  let cs := email.data
  let localPart := cs.takeWhile (fun c => c != '@')
  let rest := cs.dropWhile (fun c => c != '@')
  match rest with
  | [] => false
  | _ :: domain =>
    !(localPart.isEmpty) && !(localPart.any Char.isWhitespace) &&
    domain.all (fun c => !(c == '@') && !(Char.isWhitespace c)) &&
    ((domain.drop 1).dropLast.any (fun c => c == '.'))

/-! ## Auth Orchestrator (`src/auth/services/auth.service.ts`) -/

/-- The error kinds the orchestrator's `createUser`/`loginUser` throw as
`AppError`s (note: the login path has no account-locked kind at all). -/
inductive AuthError where
  | emailExists
  | nicknameExists
  | weakPassword
  | userCreationFailed
  | invalidCredentials
deriving Repr, DecidableEq

/-- `AuthService.sanitizeUser`: the external projection of a user (no
credential hash, backup codes or lockout counters). -/
structure SanitizedUser where
  id : String
  email : String
  nickname : String
  isVerified : Bool
deriving Repr, DecidableEq

/-- `AuthService.sanitizeUser`. -/
def sanitizeUser (u : UserDoc) : SanitizedUser :=
  { id := u.id, email := u.email, nickname := u.nickname, isVerified := u.isVerified }

/-- `AuthService.loginUser`'s `AuthResult`. -/
structure AuthResultModel where
  user : SanitizedUser
  token : SignedToken
deriving Repr, DecidableEq

/-- The password validation mongoose runs on `User.create` for the
`password` path: `minlength: 8`, `maxlength: 128` and the schema-level
`validatePasswordStrength` re-check. -/
def schemaPasswordValid (policy : PasswordPolicy) (password : String) : Bool :=
  decide (8 ≤ password.data.length) && decide (password.data.length ≤ 128) &&
    validatePasswordStrength policy password

/-- `AuthService.createUser`, composed with the mongoose `User.create`
path of `user.model.ts`: normalize the email (`toLowerCase().trim()`) and
nickname (`trim()`), fail `EMAIL_EXISTS`/`NICKNAME_EXISTS` when a document
with the same key exists, fail `WEAK_PASSWORD` when the raw password fails
the strength validator, run the schema validation (email format, nickname
format, password rules — on the NFKC-normalized password that the service
passes to `User.create`), then persist the document with the password
hashed by the pre-save hook, and return the sanitized user.  The NFKC
normalization (`normalizePassword`) and the bcrypt salt drawn for the hash
enter as the parameters `nfkc` and `salt`. -/
def createUser (policy : PasswordPolicy) (nfkc : String → String) (salt : Nat)
    (store : UserStore) (newId : String) (email password nickname : String) :
    Except AuthError (SanitizedUser × UserStore) :=
  let normalizedEmail := normalizeEmail email
  let normalizedNickname := jsTrim nickname
  if (store.find? (fun u => u.email == normalizedEmail)).isSome then
    .error .emailExists
  else if (store.find? (fun u => u.nickname == normalizedNickname)).isSome then
    .error .nicknameExists
  else if !(validatePasswordStrength policy password) then
    .error .weakPassword
  else if !(isValidEmail normalizedEmail && isValidNickname normalizedNickname &&
            schemaPasswordValid policy (nfkc password)) then
    .error .userCreationFailed
  else
    let user : UserDoc :=
      { id := newId
        email := normalizedEmail
        password := bcryptHash salt (nfkc password)
        nickname := normalizedNickname }
    .ok (sanitizeUser user, store ++ [user])

/-- `AuthService.loginUser`: normalize the email, `findOne` with the
credential projection, throw `INVALID_CREDENTIALS` when absent, compare
`normalizePassword(password)` against the stored hash, throw
`INVALID_CREDENTIALS` on mismatch, otherwise issue a token and return the
sanitized user.  The collection is returned unchanged alongside the
outcome because this code path performs no store write: it neither
consults `isAccountLocked` nor invokes `incrementLoginAttempts` /
`resetLoginAttempts` (those live only in the never-called
`findByCredentials`). -/
def loginUser (cfg : TokenConfig) (nfkc : String → String) (store : UserStore)
    (email password : String) (now : Millis) :
    Except AuthError AuthResultModel × UserStore :=
  let normalizedEmail := normalizeEmail email
  match findOneByEmail store normalizedEmail with
  | none => (.error .invalidCredentials, store)
  | some user =>
    if bcryptCompare (nfkc password) user.password then
      (.ok { user := sanitizeUser user
             token := generateToken cfg ⟨user.id, user.email, user.nickname⟩ now }, store)
    else
      (.error .invalidCredentials, store)

/-! ## The Login use case versus the Lockout Policy

`POST /auth/login` is wired (routes → `AuthController.login`) to
`AuthService.loginUser` only.  `loginUser` never consults
`isAccountLocked` and never invokes `incrementLoginAttempts` or
`resetLoginAttempts`; the full lockout flow exists solely in
`User.findByCredentials`, which no caller in the repository reaches.  The
following concrete evaluations exhibit the divergence. -/

/-- A concrete token configuration (the `AuthConfig` defaults). -/
def testConfig : TokenConfig :=
  { jwtSecret := "secret", jwtExpiresIn := 1000,
    jwtIssuer := "astrolune-api", jwtAudience := "astrolune-client" }

/-- NFKC normalization is the identity on ASCII strings; for concrete
ASCII test data we instantiate the `nfkc` parameter with the identity. -/
def asciiNfkc : String → String := fun s => s

/-- An account currently locked: `lockUntil` strictly in the future of the
test clock `now = 500`. -/
def lockedAlice : UserDoc :=
  { id := "u1", email := "alice@example.com", password := bcryptHash 0 "Str0ngPass1",
    nickname := "alice_01", failedLoginAttempts := 5, accountLocked := true,
    lockUntil := some 10000 }

/-- An unlocked account with 4 failed attempts on record. -/
def aliceFour : UserDoc :=
  { id := "u1", email := "alice@example.com", password := bcryptHash 0 "Str0ngPass1",
    nickname := "alice_01", failedLoginAttempts := 4 }

/-- An unlocked account with 3 failed attempts and no recorded login. -/
def aliceThree : UserDoc :=
  { id := "u1", email := "alice@example.com", password := bcryptHash 0 "Str0ngPass1",
    nickname := "alice_01", failedLoginAttempts := 3 }

/-- Claim C1 (failing input): at `now = 500` the account `lockedAlice` is
locked (`lockedUntil = 10000` is in the future), yet the Login use case
(`loginUser`) does not fail with `AccountLocked`: with the correct
password it succeeds outright, and with a wrong password it reaches the
hash comparison and answers `INVALID_CREDENTIALS` — the outcome depends on
the submitted password, so the comparison path is exercised and no lock
gate exists (`AuthError` has no locked kind at all).  The collection is
untouched in both cases.  `findByCredentials`, by contrast, implements the
claimed gate — but nothing in the login path calls it. -/
theorem loginUser_ignores_lock :
    isAccountLocked lockedAlice 500 = true ∧
    (∃ r, loginUser testConfig asciiNfkc [lockedAlice] "alice@example.com" "Str0ngPass1" 500 =
      (.ok r, [lockedAlice])) ∧
    loginUser testConfig asciiNfkc [lockedAlice] "alice@example.com" "WrongPass99" 500 =
      (.error .invalidCredentials, [lockedAlice]) ∧
    findByCredentials [lockedAlice] "alice@example.com" "Str0ngPass1" 500 =
      (.accountLockedErr, [lockedAlice]) := by
  refine ⟨by decide, ⟨_, rfl⟩, rfl, by decide⟩

/-- Claim C2 (failing input): a wrong-password attempt against the
unlocked account `aliceFour` (4 failures on record) returns
`INVALID_CREDENTIALS` but leaves the collection unchanged — the Login use
case performs no failure transition, so the 5th failure neither increments
the counter nor locks the account.  The failure transition itself
(`incrementLoginAttempts`) would have locked the account for 2 hours, and
`findByCredentials` does apply it — but the login path never calls either. -/
theorem loginUser_skips_failure_transition :
    isAccountLocked aliceFour 500 = false ∧
    loginUser testConfig asciiNfkc [aliceFour] "alice@example.com" "WrongPass99" 500 =
      (.error .invalidCredentials, [aliceFour]) ∧
    incrementLoginAttempts aliceFour 500 =
      { aliceFour with failedLoginAttempts := 5, accountLocked := true,
                       lockUntil := some (500 + LOCK_TIME) } ∧
    findByCredentials [aliceFour] "alice@example.com" "WrongPass99" 500 =
      (.badPassword,
       [{ aliceFour with failedLoginAttempts := 5, accountLocked := true,
                         lockUntil := some (500 + LOCK_TIME) }]) := by
  refine ⟨by decide, rfl, by decide, by decide⟩

/-- Claim C3 (failing input): a correct-password login on the unlocked
account `aliceThree` succeeds, but the Login use case performs no success
transition: the collection is returned unchanged, so `failedLoginAttempts`
stays 3 and `lastLoginAt` stays unset, instead of being cleared and
stamped.  The success transition (`resetLoginAttempts`) exists and
`findByCredentials` applies it — but the login path never calls either. -/
theorem loginUser_skips_success_transition :
    (∃ r, loginUser testConfig asciiNfkc [aliceThree] "alice@example.com" "Str0ngPass1" 500 =
      (.ok r, [aliceThree])) ∧
    aliceThree.failedLoginAttempts = 3 ∧
    aliceThree.lastLoginAt = none ∧
    resetLoginAttempts aliceThree 500 =
      { aliceThree with failedLoginAttempts := 0, lastLoginAt := some 500 } ∧
    findByCredentials [aliceThree] "alice@example.com" "Str0ngPass1" 500 =
      (.ok aliceThree,
       [{ aliceThree with failedLoginAttempts := 0, lastLoginAt := some 500 }]) := by
  refine ⟨⟨_, rfl⟩, rfl, rfl, by decide, by decide⟩

/-! ## Recovery Service (`src/auth/services/recovery.service.ts`)

SHA-256 (`crypto.createHash('sha256').update(x).digest('hex')`) and the
random code source (`crypto.randomBytes`) are runtime primitives and enter
as the parameters `sha256` and the plaintext code(s). -/

/-- A `RecoveryCode` document (`src/models/recovery-code.model.ts`):
`userId`, the SHA-256 hash of the code (field `code`), and `expiresAt`. -/
structure RecoveryRecord where
  userId : String
  code : String
  expiresAt : Millis
deriving Repr, DecidableEq

/-- The query filter of `verifyRecoveryCode`:
`{ userId, code: hashedCode, expiresAt: { $gt: new Date() } }`. -/
def recoveryMatches (userId hashedCode : String) (now : Millis) (r : RecoveryRecord) : Bool :=
  r.userId == userId && r.code == hashedCode && decide (now < r.expiresAt)

/-- `Model.findOneAndDelete(filter)`: atomically return the first document
matching the filter and the collection with that document removed (the
collection unchanged when nothing matches). -/
def findOneAndDelete (p : RecoveryRecord → Bool) :
    List RecoveryRecord → Option RecoveryRecord × List RecoveryRecord
  | [] => (none, [])
  | r :: rs =>
    if p r then (some r, rs)
    else ((findOneAndDelete p rs).1, r :: (findOneAndDelete p rs).2)

/-- `RecoveryService.verifyRecoveryCode`: hash the candidate and
`findOneAndDelete` the matching, non-expired record for the account;
report whether one was found. -/
def verifyRecoveryCode (sha256 : String → String) (recoveryCodes : List RecoveryRecord)
    (userId code : String) (now : Millis) : Bool × List RecoveryRecord :=
  let hashedCode := sha256 code
  let (found, rest) := findOneAndDelete (recoveryMatches userId hashedCode now) recoveryCodes
  (found.isSome, rest)

/-- `RecoveryService.generateRecoveryCode`: `deleteMany({ userId })`, then
insert one record with the hashed code and a 15-minute expiry, returning
the plaintext (the `randomBytes(3).toString('hex')` draw enters as
`plainCode`). -/
def generateRecoveryCode (sha256 : String → String) (recoveryCodes : List RecoveryRecord)
    (userId plainCode : String) (now : Millis) : String × List RecoveryRecord :=
  let afterDelete := recoveryCodes.filter (fun r => r.userId != userId)
  (plainCode, afterDelete ++ [⟨userId, sha256 plainCode, now + 15 * 60 * 1000⟩])

/-- `RecoveryService.generateBackupCodes`: draw 5 random codes
(`Array.from({ length: 5 }, ...)`, the draws entering as `rand`), `$set`
the user's `backupCodes` to their SHA-256 hashes, and return the
plaintexts. -/
def generateBackupCodes (sha256 : String → String) (rand : Nat → String) (u : UserDoc) :
    List String × UserDoc :=
  let codes := (List.range 5).map rand
  (codes, { u with backupCodes := codes.map sha256 })

/-- `RecoveryService.validateBackupCode`: hash the candidate, take
`indexOf` in the stored `backupCodes`, fail when `-1`, otherwise `splice`
out exactly that entry and save. -/
def validateBackupCode (sha256 : String → String) (u : UserDoc) (code : String) :
    Bool × UserDoc :=
  let hashedCode := sha256 code
  match u.backupCodes.findIdx? (fun h => h == hashedCode) with
  | none => (false, u)
  | some index => (true, { u with backupCodes := u.backupCodes.eraseIdx index })

/-! ## Recovery HTTP handlers (`recovery.controller.ts`) -/

/-- The parts of an Express JSON response the recovery handlers produce. -/
structure HandlerResponse where
  status : Nat
  success : Bool
  message : String
deriving Repr, DecidableEq

/-- The persistent state the recovery handlers touch: the user collection
(which owns every `backupCodes` array) and the recovery-code collection. -/
structure AppState where
  users : UserStore
  recoveryCodes : List RecoveryRecord
deriving Repr, DecidableEq

/-- `RecoveryController.initPasswordReset`: look the account up by the
submitted email; answer 200 with a hedged message when it does not exist;
otherwise generate (and notionally email) a recovery code and answer 200
with a delivery confirmation. -/
def initPasswordReset (sha256 : String → String) (st : AppState)
    (email plainCode : String) (now : Millis) : HandlerResponse × AppState :=
  match st.users.find? (fun u => u.email == email) with
  | none =>
    ({ status := 200, success := true,
       message := "If the email exists, a recovery code has been sent" }, st)
  | some user =>
    let (_, rcs) := generateRecoveryCode sha256 st.recoveryCodes user.id plainCode now
    ({ status := 200, success := true, message := "Recovery code sent to email" },
     { st with recoveryCodes := rcs })

/-- `RecoveryController.useBackupCode`: for an authenticated user, check
the submitted code with `RecoveryService.verifyRecoveryCode` (the
password-reset recovery-code collection — not `validateBackupCode` and not
the user's stored `backupCodes`); answer 200 on success, and throw
`Invalid backup code` (surfacing as an error response) otherwise. -/
def useBackupCode (sha256 : String → String) (st : AppState)
    (currentUser : Option UserDoc) (code : String) (now : Millis) :
    HandlerResponse × AppState :=
  match currentUser with
  | none => ({ status := 500, success := false, message := "User not authenticated" }, st)
  | some user =>
    let (isValid, rcs) := verifyRecoveryCode sha256 st.recoveryCodes user.id code now
    if isValid then
      ({ status := 200, success := true, message := "Backup code verified" },
       { st with recoveryCodes := rcs })
    else
      ({ status := 500, success := false, message := "Invalid backup code" },
       { st with recoveryCodes := rcs })

/-! ## Lemmas about `findOneAndDelete` -/

theorem findOneAndDelete_cons_pos (p : RecoveryRecord → Bool) (r : RecoveryRecord)
    (rs : List RecoveryRecord) (h : p r = true) :
    findOneAndDelete p (r :: rs) = (some r, rs) := by
  simp [findOneAndDelete, h]

theorem findOneAndDelete_cons_neg (p : RecoveryRecord → Bool) (r : RecoveryRecord)
    (rs : List RecoveryRecord) (h : p r = false) :
    findOneAndDelete p (r :: rs) =
      ((findOneAndDelete p rs).1, r :: (findOneAndDelete p rs).2) := by
  simp [findOneAndDelete, h]

theorem findOneAndDelete_isSome_eq_any (p : RecoveryRecord → Bool) (l : List RecoveryRecord) :
    (findOneAndDelete p l).1.isSome = l.any p := by
  induction l with
  | nil => rfl
  | cons r rs ih =>
    cases hp : p r with
    | true => rw [findOneAndDelete_cons_pos p r rs hp]; simp [hp]
    | false => rw [findOneAndDelete_cons_neg p r rs hp]; simp [hp, ih]

theorem findOneAndDelete_none_snd (p : RecoveryRecord → Bool) (l : List RecoveryRecord)
    (h : (findOneAndDelete p l).1.isSome = false) : (findOneAndDelete p l).2 = l := by
  induction l with
  | nil => rfl
  | cons r rs ih =>
    cases hp : p r with
    | true => rw [findOneAndDelete_cons_pos p r rs hp] at h; simp at h
    | false =>
      rw [findOneAndDelete_cons_neg p r rs hp] at h ⊢
      simp only [List.cons.injEq, true_and]
      exact ih h

theorem findOneAndDelete_some_length (p : RecoveryRecord → Bool) (l : List RecoveryRecord)
    (h : (findOneAndDelete p l).1.isSome = true) :
    (findOneAndDelete p l).2.length + 1 = l.length := by
  induction l with
  | nil => simp [findOneAndDelete] at h
  | cons r rs ih =>
    cases hp : p r with
    | true => rw [findOneAndDelete_cons_pos p r rs hp]; rfl
    | false =>
      rw [findOneAndDelete_cons_neg p r rs hp] at h ⊢
      simp only [List.length_cons]
      rw [← ih h]

theorem findOneAndDelete_some_countP (p : RecoveryRecord → Bool) (l : List RecoveryRecord)
    (h : (findOneAndDelete p l).1.isSome = true) :
    (findOneAndDelete p l).2.countP p + 1 = l.countP p := by
  induction l with
  | nil => simp [findOneAndDelete] at h
  | cons r rs ih =>
    cases hp : p r with
    | true =>
      rw [findOneAndDelete_cons_pos p r rs hp]
      simp [List.countP_cons, hp]
    | false =>
      rw [findOneAndDelete_cons_neg p r rs hp] at h ⊢
      have hih := ih h
      simp only [List.countP_cons, hp]
      simp
      omega

/-! ## Theorems about the recovery flows -/

/-- Claim C6: for an account holding exactly one live (non-expired)
recovery record matching the submitted plaintext code (the state
`generateRecoveryCode` guarantees — it deletes all prior records for the
account before inserting one), `verifyRecoveryCode` returns `true` and
removes the record in the same find-and-delete operation, so an
immediately repeated call with the same code returns `false`. -/
theorem verifyRecoveryCode_single_use (sha256 : String → String)
    (rcs : List RecoveryRecord) (userId code : String) (now : Millis)
    (hone : rcs.countP (recoveryMatches userId (sha256 code) now) = 1) :
    (verifyRecoveryCode sha256 rcs userId code now).1 = true ∧
    (verifyRecoveryCode sha256 rcs userId code now).2.length + 1 = rcs.length ∧
    (verifyRecoveryCode sha256 rcs userId code now).2.countP
      (recoveryMatches userId (sha256 code) now) = 0 ∧
    (verifyRecoveryCode sha256
      (verifyRecoveryCode sha256 rcs userId code now).2 userId code now).1 = false := by
  set p := recoveryMatches userId (sha256 code) now with hp
  have hv : verifyRecoveryCode sha256 rcs userId code now =
      ((findOneAndDelete p rcs).1.isSome, (findOneAndDelete p rcs).2) := rfl
  have hsome : (findOneAndDelete p rcs).1.isSome = true := by
    rw [findOneAndDelete_isSome_eq_any]
    rw [List.any_eq_true]
    have : 0 < rcs.countP p := by omega
    exact List.countP_pos_iff.mp this
  have hcount : (findOneAndDelete p rcs).2.countP p + 1 = rcs.countP p :=
    findOneAndDelete_some_countP p rcs hsome
  have hzero : (findOneAndDelete p rcs).2.countP p = 0 := by omega
  refine ⟨by rw [hv]; exact hsome,
          by rw [hv]; exact findOneAndDelete_some_length p rcs hsome,
          by rw [hv]; exact hzero, ?_⟩
  have hv2 : (verifyRecoveryCode sha256 (verifyRecoveryCode sha256 rcs userId code now).2
      userId code now).1 = ((findOneAndDelete p (findOneAndDelete p rcs).2).1).isSome := rfl
  rw [hv2, findOneAndDelete_isSome_eq_any]
  have hall : ∀ a ∈ (findOneAndDelete p rcs).2, ¬ p a = true := List.countP_eq_zero.mp hzero
  rw [List.any_eq_false]
  exact hall

/-- Witness for C6 at a concrete one-record store. -/
theorem verifyRecoveryCode_single_use_witness :
    (verifyRecoveryCode (fun s => s) [⟨"u1", "A1B2C3", 100⟩] "u1" "A1B2C3" 0).1 = true ∧
    (verifyRecoveryCode (fun s => s) [⟨"u1", "A1B2C3", 100⟩] "u1" "A1B2C3" 0).2.length + 1 = 1 ∧
    (verifyRecoveryCode (fun s => s) [⟨"u1", "A1B2C3", 100⟩] "u1" "A1B2C3" 0).2.countP
      (recoveryMatches "u1" "A1B2C3" 0) = 0 ∧
    (verifyRecoveryCode (fun s => s)
      (verifyRecoveryCode (fun s => s) [⟨"u1", "A1B2C3", 100⟩] "u1" "A1B2C3" 0).2
      "u1" "A1B2C3" 0).1 = false :=
  verifyRecoveryCode_single_use (fun s => s) [⟨"u1", "A1B2C3", 100⟩] "u1" "A1B2C3" 0 (by decide)

/-- Claim C7: the `use-backup-code` handler, for an authenticated user,
leaves the user collection — and with it every stored `backupCodes` array —
unchanged; it succeeds (HTTP 200) exactly when a non-expired recovery
record whose `code` equals the SHA-256 hash of the submitted code exists
for the account; on success that record is deleted, and on failure the
recovery-code collection too is unchanged. -/
theorem useBackupCode_reads_recovery_not_backup (sha256 : String → String) (st : AppState)
    (user : UserDoc) (code : String) (now : Millis) :
    (useBackupCode sha256 st (some user) code now).2.users = st.users ∧
    ((useBackupCode sha256 st (some user) code now).1.status = 200 ↔
      ∃ r ∈ st.recoveryCodes, recoveryMatches user.id (sha256 code) now r = true) ∧
    ((useBackupCode sha256 st (some user) code now).1.status = 200 →
      (useBackupCode sha256 st (some user) code now).2.recoveryCodes.length + 1 =
        st.recoveryCodes.length) ∧
    ((useBackupCode sha256 st (some user) code now).1.status ≠ 200 →
      (useBackupCode sha256 st (some user) code now).2.recoveryCodes = st.recoveryCodes) := by
  set p := recoveryMatches user.id (sha256 code) now with hp
  have hu : useBackupCode sha256 st (some user) code now =
      (if (findOneAndDelete p st.recoveryCodes).1.isSome then
        ({ status := 200, success := true, message := "Backup code verified" },
         { st with recoveryCodes := (findOneAndDelete p st.recoveryCodes).2 })
      else
        ({ status := 500, success := false, message := "Invalid backup code" },
         { st with recoveryCodes := (findOneAndDelete p st.recoveryCodes).2 })) := rfl
  by_cases h : (findOneAndDelete p st.recoveryCodes).1.isSome
  · have hex : ∃ r ∈ st.recoveryCodes, p r = true := by
      have hc := h
      rw [findOneAndDelete_isSome_eq_any, List.any_eq_true] at hc
      exact hc
    rw [hu, if_pos h]
    exact ⟨rfl, iff_of_true rfl hex,
           fun _ => findOneAndDelete_some_length p st.recoveryCodes h,
           fun hne => absurd rfl hne⟩
  · have hfalse : (findOneAndDelete p st.recoveryCodes).1.isSome = false := by
      simpa using h
    have hnex : ¬ ∃ r ∈ st.recoveryCodes, p r = true := by
      rw [findOneAndDelete_isSome_eq_any, List.any_eq_false] at hfalse
      rintro ⟨r, hr, hpr⟩
      exact hfalse r hr hpr
    rw [hu, if_neg h]
    exact ⟨rfl, iff_of_false (show ¬((500 : Nat) = 200) by decide) hnex,
           fun habs => absurd habs (show ¬((500 : Nat) = 200) by decide),
           fun _ => findOneAndDelete_none_snd p st.recoveryCodes hfalse⟩

/-- Witness for C7 at a concrete state (one live matching record). -/
theorem useBackupCode_reads_recovery_not_backup_witness :
    (useBackupCode (fun s => s)
      { users := [aliceThree], recoveryCodes := [⟨"u1", "A1B2C3", 100⟩] }
      (some aliceThree) "A1B2C3" 0).2.users = [aliceThree] ∧
    (useBackupCode (fun s => s)
      { users := [aliceThree], recoveryCodes := [⟨"u1", "A1B2C3", 100⟩] }
      (some aliceThree) "A1B2C3" 0).1.status = 200 := by
  have h := useBackupCode_reads_recovery_not_backup (fun s => s)
    { users := [aliceThree], recoveryCodes := [⟨"u1", "A1B2C3", 100⟩] }
    aliceThree "A1B2C3" 0
  exact ⟨h.1, h.2.1.mpr ⟨⟨"u1", "A1B2C3", 100⟩, by simp, by decide⟩⟩

/-- JS `indexOf` followed by `splice(index, 1)` removes exactly the first
occurrence, i.e. `List.erase`. -/
theorem eraseIdx_findIdx_eq_erase (a : String) :
    ∀ (l : List String) (i : Nat), l.findIdx? (fun h => h == a) = some i →
      l.eraseIdx i = l.erase a := by
  intro l
  induction l with
  | nil => intro i h; simp at h
  | cons x xs ih =>
    intro i h
    rw [List.findIdx?_cons] at h
    cases hx : x == a with
    | true =>
      rw [hx, if_pos rfl] at h
      cases h
      rw [List.eraseIdx_cons_zero, List.erase_cons, hx, if_pos rfl]
    | false =>
      rw [hx] at h
      simp only [Bool.false_eq_true, if_false, List.findIdx?_start_succ] at h
      rcases Option.map_eq_some'.mp h with ⟨j, hj, hji⟩
      subst hji
      rw [Nat.zero_add, List.eraseIdx_cons_succ, List.erase_cons, hx]
      simp only [Bool.false_eq_true, if_false, List.cons.injEq, true_and]
      exact ih j hj

/-- Claim C9: the stored `backupCodes` only shrink under consumption —
`validateBackupCode` never grows the set, on success removes exactly the
first stored hash equal to the SHA-256 of the candidate (leaving the rest
intact, one fewer entry), and on failure changes nothing — while
`generateBackupCodes` replaces the entire set with the hashes of 5 freshly
drawn codes. -/
theorem backupCodes_shrink_or_replace (sha256 : String → String) (rand : Nat → String)
    (u : UserDoc) (code : String) :
    (validateBackupCode sha256 u code).2.backupCodes.Sublist u.backupCodes ∧
    ((validateBackupCode sha256 u code).1 = true →
      (validateBackupCode sha256 u code).2.backupCodes = u.backupCodes.erase (sha256 code) ∧
      (validateBackupCode sha256 u code).2.backupCodes.length + 1 = u.backupCodes.length) ∧
    ((validateBackupCode sha256 u code).1 = false →
      (validateBackupCode sha256 u code).2 = u) ∧
    (generateBackupCodes sha256 rand u).2.backupCodes =
      ((List.range 5).map rand).map sha256 ∧
    (generateBackupCodes sha256 rand u).2.backupCodes.length = 5 := by
  refine ⟨?_, ?_, ?_, rfl, by simp [generateBackupCodes]⟩
  · cases hidx : u.backupCodes.findIdx? (fun h => h == sha256 code) with
    | none => simp [validateBackupCode, hidx]
    | some i =>
      simp only [validateBackupCode, hidx]
      exact List.eraseIdx_sublist u.backupCodes i
  · intro hok
    cases hidx : u.backupCodes.findIdx? (fun h => h == sha256 code) with
    | none => simp [validateBackupCode, hidx] at hok
    | some i =>
      have hlt : i < u.backupCodes.length := by
        rcases List.findIdx?_eq_some_iff_getElem.mp hidx with ⟨hl, _⟩
        exact hl
      constructor
      · simp only [validateBackupCode, hidx]
        exact eraseIdx_findIdx_eq_erase (sha256 code) u.backupCodes i hidx
      · simp only [validateBackupCode, hidx]
        rw [List.length_eraseIdx]
        simp [hlt]
        omega
  · intro hko
    cases hidx : u.backupCodes.findIdx? (fun h => h == sha256 code) with
    | none => simp [validateBackupCode, hidx]
    | some i => simp [validateBackupCode, hidx] at hko

/-- Witness for C9 at a concrete two-entry code set. -/
theorem backupCodes_shrink_or_replace_witness :
    (validateBackupCode (fun s => s)
      { aliceThree with backupCodes := ["H1", "H2"] } "H2").1 = true ∧
    (validateBackupCode (fun s => s)
      { aliceThree with backupCodes := ["H1", "H2"] } "H2").2.backupCodes =
      ["H1", "H2"].erase "H2" ∧
    (validateBackupCode (fun s => s)
      { aliceThree with backupCodes := ["H1", "H2"] } "H2").2.backupCodes.length + 1 = 2 := by
  have h := backupCodes_shrink_or_replace (fun s => s) (fun _ => "R")
    { aliceThree with backupCodes := ["H1", "H2"] } "H2"
  have hok : (validateBackupCode (fun s => s)
      { aliceThree with backupCodes := ["H1", "H2"] } "H2").1 = true := by decide
  exact ⟨hok, (h.2.1 hok).1, (h.2.1 hok).2⟩

/-! ## Theorems about `initPasswordReset` (enumeration resistance) -/

/-- Claim C4 (counterexample): at a concrete store containing only
`alice@example.com`, the `init-password-reset` responses for a registered
and an unregistered email both carry status 200 and `success = true`, but
their `message` bodies differ — `Recovery code sent to email` versus
`If the email exists, a recovery code has been sent` — so the full
responses are not byte-identical and the endpoint does reveal whether the
email is registered. -/
theorem initPasswordReset_message_leak_counterexample :
    (initPasswordReset (fun s => s) { users := [aliceThree], recoveryCodes := [] }
      "alice@example.com" "A1B2C3" 0).1.status = 200 ∧
    (initPasswordReset (fun s => s) { users := [aliceThree], recoveryCodes := [] }
      "bob@example.com" "A1B2C3" 0).1.status = 200 ∧
    (initPasswordReset (fun s => s) { users := [aliceThree], recoveryCodes := [] }
      "alice@example.com" "A1B2C3" 0).1.message = "Recovery code sent to email" ∧
    (initPasswordReset (fun s => s) { users := [aliceThree], recoveryCodes := [] }
      "bob@example.com" "A1B2C3" 0).1.message =
      "If the email exists, a recovery code has been sent" ∧
    (initPasswordReset (fun s => s) { users := [aliceThree], recoveryCodes := [] }
      "alice@example.com" "A1B2C3" 0).1 ≠
    (initPasswordReset (fun s => s) { users := [aliceThree], recoveryCodes := [] }
      "bob@example.com" "A1B2C3" 0).1 := by
  refine ⟨rfl, rfl, rfl, rfl, by decide⟩

/-- Claim C4 (amended): every `init-password-reset` response has status
200 and `success = true` with a `{success, message}` body of the same
shape, regardless of whether the email is registered — but the `message`
string depends on registration: `Recovery code sent to email` when the
account exists, `If the email exists, a recovery code has been sent` when
it does not. -/
theorem initPasswordReset_status_uniform_message_leaks (sha256 : String → String)
    (st : AppState) (email plainCode : String) (now : Millis) :
    (initPasswordReset sha256 st email plainCode now).1.status = 200 ∧
    (initPasswordReset sha256 st email plainCode now).1.success = true ∧
    (initPasswordReset sha256 st email plainCode now).1.message =
      (if (st.users.find? (fun u => u.email == email)).isSome then
        "Recovery code sent to email"
      else
        "If the email exists, a recovery code has been sent") := by
  cases hfind : st.users.find? (fun u => u.email == email) with
  | none => simp [initPasswordReset, hfind]
  | some user => simp [initPasswordReset, hfind]

/-! ## Theorem about password NFKC normalization -/

/-- Claim C10: registration (`createUser`) and login (`loginUser`) both
pass the submitted password through `normalizePassword` — the runtime's
NFKC normalization, entering here as the parameter `nfkc` — before hashing
respectively comparison.  Hence for any two passwords with the same NFKC
normal form, the hash stored at registration is the same for either, and a
login with one plaintext authenticates against the account registered with
the other. -/
theorem nfkc_equivalent_passwords_authenticate (cfg : TokenConfig)
    (policy : PasswordPolicy) (nfkc : String → String) (salt : Nat) (store : UserStore)
    (newId email p1 p2 nickname : String) (now : Millis)
    (hnorm : nfkc p1 = nfkc p2) (res : SanitizedUser) (store' : UserStore)
    (hsucc : createUser policy nfkc salt store newId email p1 nickname = .ok (res, store')) :
    bcryptHash salt (nfkc p1) = bcryptHash salt (nfkc p2) ∧
    ∃ r, (loginUser cfg nfkc store' email p2 now).1 = .ok r := by
  simp only [createUser] at hsucc
  split at hsucc
  next hemail => exact Except.noConfusion hsucc
  next hemail =>
    split at hsucc
    next hnick => exact Except.noConfusion hsucc
    next hnick =>
      split at hsucc
      next hstrength => exact Except.noConfusion hsucc
      next hstrength =>
        split at hsucc
        next hschema => exact Except.noConfusion hsucc
        next hschema =>
          injection hsucc with hpair
          injection hpair with hres hstore
          subst hstore
          have hnone : store.find? (fun u => u.email == normalizeEmail email) = none := by
            rcases hfind : store.find? (fun u => u.email == normalizeEmail email) with _ | u
            · exact hfind
            · rw [hfind] at hemail
              exact absurd rfl hemail
          refine ⟨by rw [hnorm], ?_⟩
          simp only [loginUser, findOneByEmail, List.find?_append, hnone, Option.none_or,
            List.find?_cons, beq_self_eq_true, if_pos, bcryptCompare, bcryptHash, ← hnorm,
            beq_self_eq_true]
          exact ⟨_, rfl⟩

/-- Witness for C10: two distinct ASCII passwords with (under the chosen
normalization function) the same normal form; registration with the first
succeeds and login with the second authenticates. -/
theorem nfkc_equivalent_passwords_authenticate_witness :
    bcryptHash 0 ((fun _ => "Password1!") "Aa1!aaaa") =
      bcryptHash 0 ((fun _ => "Password1!") "Bb2?bbbb") ∧
    ∃ r, (loginUser testConfig (fun _ => "Password1!")
      [{ id := "u1", email := "alice@example.com",
         password := bcryptHash 0 "Password1!", nickname := "alice_01" }]
      "alice@example.com" "Bb2?bbbb" 500).1 = .ok r :=
  nfkc_equivalent_passwords_authenticate testConfig {} (fun _ => "Password1!") 0 []
    "u1" "alice@example.com" "Aa1!aaaa" "Bb2?bbbb" "alice_01" 500 rfl _ _ rfl

end BackendPlus
